import Mathlib

/-!
# Verification of the ports-tool port scanner (src/main.rs)

Shallow embedding of the core of `ports-tool`: the socket-table parser
(`parse_net_line`), the process metadata reader (`get_process_info`), the
process table builder (`get_process_info_map`), the inode-to-process resolver
(`find_process_by_inode`) and the port snapshot builder (`get_open_ports`).

The file-system surface (`/proc`) is modelled by an explicit environment
(`Env`): socket tables are optional strings (absence = the read failed),
per-process metadata files are optional strings, and per-process descriptor
links are the lists of successfully resolved symbolic-link targets.

Rust string primitives (`split_whitespace`, `split(':')`, `lines`, `trim`,
`replace`, `strip_prefix`/`strip_suffix`, `from_str_radix`, `parse::<u32>`)
are embedded as structurally recursive functions over `List Char`, so that
every definition evaluates inside the kernel.
-/

/-- Split a character list at every character satisfying `p`, keeping empty
groups (the semantics of Rust's `split` and of `String.split`). -/
def splitByPred (p : Char → Bool) : List Char → List (List Char)
  | [] => [[]]
  | c :: rest =>
    let r := splitByPred p rest
    if p c then [] :: r
    else
      match r with
      | [] => [[c]]
      | g :: gs => (c :: g) :: gs

/-- Rust `str::split_whitespace`: split at whitespace and drop empty groups. -/
def splitWhitespace (s : String) : List String :=
  ((splitByPred Char.isWhitespace s.data).filter (fun g => ¬ g.isEmpty)).map String.mk

/-- Rust `str::split(':')` (all groups kept, including empty ones). -/
def splitOnColon (s : String) : List String :=
  (splitByPred (fun c => c = ':') s.data).map String.mk

/-- Rust `str::lines`: split on `\n`, drop a final empty segment produced by a
trailing newline, and strip one trailing `\r` from each line. -/
def rustLines (s : String) : List String :=
  let parts := splitByPred (fun c => c = '\n') s.data
  let parts := if parts.getLast? = some [] then parts.dropLast else parts
  parts.map (fun cs =>
    String.mk (if cs.getLast? = some (Char.ofNat 13) then cs.dropLast else cs))

/-- Strip leading and trailing whitespace characters (Rust `str::trim`). -/
def rustTrim (s : String) : String :=
  String.mk (((s.data.dropWhile Char.isWhitespace).reverse.dropWhile
    Char.isWhitespace).reverse)

/-- Rust `str::replace('\0', " ")`: replace every NUL character by a space. -/
def replaceNulBySpace (s : String) : String :=
  String.mk (s.data.map (fun c => if c = Char.ofNat 0 then ' ' else c))

/-- ASCII uppercase conversion (Rust `str::to_uppercase` on ASCII input). -/
def rustToUppercase (s : String) : String :=
  String.mk (s.data.map Char.toUpper)

/-- Remove `pre` from the front of `cs`, or `none` (Rust `strip_prefix`). -/
def stripExactPre : List Char → List Char → Option (List Char)
  | [], cs => some cs
  | _ :: _, [] => none
  | p :: ps, c :: cs => if c = p then stripExactPre ps cs else none

/-- Remove `suf` from the end of `cs`, or `none` (Rust `strip_suffix`). -/
def stripExactSuf (suf cs : List Char) : Option (List Char) :=
  (stripExactPre suf.reverse cs.reverse).map List.reverse

/-- Whether `cs` starts with `pre` (Rust `starts_with`). -/
def startsWithChars (pre cs : List Char) : Bool :=
  (stripExactPre pre cs).isSome

/-- The numeric value of a digit character in the given base (Rust's
`char::to_digit`, as used by `from_str_radix`): `0-9`, `a-z`, `A-Z`. -/
def digitVal (base : Nat) (c : Char) : Option Nat :=
  let v :=
    if c.toNat ≥ 48 ∧ c.toNat ≤ 57 then some (c.toNat - 48)
    else if c.toNat ≥ 97 ∧ c.toNat ≤ 122 then some (c.toNat - 87)
    else if c.toNat ≥ 65 ∧ c.toNat ≤ 90 then some (c.toNat - 55)
    else none
  match v with
  | some d => if d < base then some d else none
  | none => none

/-- Accumulate the value of a digit string; `none` at the first non-digit. -/
def digitsVal (base : Nat) (acc : Nat) : List Char → Option Nat
  | [] => some acc
  | c :: cs =>
    match digitVal base c with
    | some d => digitsVal base (acc * base + d) cs
    | none => none

/-- Rust unsigned integer parsing (`uN::from_str_radix`, and `parse::<uN>` at
base 10): an optional leading `+`, then one or more digits of the base; the
value must fit below `bound` (`2^16` for `u16`, `2^32` for `u32`), otherwise
the parse fails with an overflow error.  Rust checks overflow at every step,
but since the accumulated value only grows this is equivalent to checking the
final value. -/
def rustParseUInt (base bound : Nat) (cs : List Char) : Option Nat :=
  let cs := match cs with
    | '+' :: rest => rest
    | other => other
  match cs with
  | [] => none
  | _ =>
    match digitsVal base 0 cs with
    | some v => if v < bound then some v else none
    | none => none

/-- Version of `rustParseUInt` taking a `String`. -/
def rustParseUIntStr (base bound : Nat) (s : String) : Option Nat :=
  rustParseUInt base bound s.data

/-- Structure `ProcessInfo` from src/main.rs: metadata of one process. -/
structure ProcessInfo where
  pid : Nat
  name : String
  command : String
  working_dir : String
deriving DecidableEq

/-- Structure `PortInfo` from src/main.rs: one output record of the scanner. -/
structure PortInfo where
  port : Nat
  protocol : String
  state : String
  pid : String
  process_name : String
  command : String
  working_dir : String
deriving DecidableEq

/-- The `/proc` file-system surface read by the program.  `none` means the
corresponding read fails.  `fdLinks pid` is the list of successfully resolved
symbolic-link targets of the descriptor entries of `pid` (a failing
`read_dir` or `read_link` contributes no targets, exactly as the source
silently skips them). -/
structure Env where
  procEntries : Option (List String)
  comm : Nat → Option String
  cmdline : Nat → Option String
  cwd : Nat → Option String
  fdLinks : Nat → List String
  tcpTable : Option String
  udpTable : Option String

/-- The IPv4 dotted-decimal string built by `parse_net_line` (src/main.rs
lines 168-174): bytes of the little-endian 32-bit address, low byte first. -/
def ipString (addr : Nat) : String :=
  toString (addr &&& 255) ++ "." ++ toString ((addr >>> 8) &&& 255) ++ "." ++
    toString ((addr >>> 16) &&& 255) ++ "." ++ toString ((addr >>> 24) &&& 255)

/-- The TCP state-code table of `parse_net_line` (src/main.rs lines 190-203). -/
def tcpStateLabel (state : String) : String :=
  if state = "0A" then "LISTEN"
  else if state = "01" then "ESTABLISHED"
  else if state = "02" then "SYN_SENT"
  else if state = "03" then "SYN_RECV"
  else if state = "04" then "FIN_WAIT1"
  else if state = "05" then "FIN_WAIT2"
  else if state = "06" then "TIME_WAIT"
  else if state = "07" then "CLOSE"
  else if state = "08" then "CLOSE_WAIT"
  else if state = "09" then "LAST_ACK"
  else if state = "0B" then "CLOSING"
  else "UNKNOWN"

/-- The specific-port filter of `parse_net_line` (src/main.rs lines 182-186):
true when a target port is set and the row's port differs. -/
def portFilteredOut (specific_port : Option Nat) (port : Nat) : Bool :=
  match specific_port with
  | some t => port != t
  | none => false

/-- The inode encoded in a descriptor link target, per `find_process_by_inode`
(src/main.rs lines 291-301): the target must start with `socket:[`, end with
`]`, and the middle must parse as a `u32`. -/
def socketLinkInode (target : String) : Option Nat :=
  if startsWithChars "socket:[".data target.data then
    match stripExactPre "socket:[".data target.data with
    | some rest =>
      match stripExactSuf [']'] rest with
      | some inodeStr => rustParseUInt 10 4294967296 inodeStr
      | none => none
    | none => none
  else none

/-- Whether a descriptor link target designates the socket `target_inode`. -/
def fdLinkMatches (target : String) (target_inode : Nat) : Bool :=
  match socketLinkInode target with
  | some inode => inode == target_inode
  | none => false

/-- Function `find_process_by_inode` (src/main.rs lines 281-309): walk the process
table; for the first process one of whose descriptor links designates the
target inode, return its identifier and record; otherwise `(none, none)`.
The Rust function returns `Result` but every return site is `Ok`. -/
def find_process_by_inode (env : Env) (target_inode : Nat) :
    List (Nat × ProcessInfo) → Except String (Option Nat × Option ProcessInfo)
  | [] => .ok (none, none)
  | (pid, info) :: rest =>
    if (env.fdLinks pid).any (fun t => fdLinkMatches t target_inode)
    then .ok (some pid, some info)
    else find_process_by_inode env target_inode rest

/-- Function `get_process_info` (src/main.rs lines 248-279): name from `comm` (or
`"unknown"`), command from `cmdline` (or `"unknown"`) with NULs replaced by
spaces and trimmed, falling back to the name when empty; working directory
from the `cwd` link (or `"unknown"`).  Always `Ok`. -/
def get_process_info (env : Env) (pid : Nat) : Except String ProcessInfo :=
  let name := rustTrim ((env.comm pid).getD "unknown")
  let command := rustTrim (replaceNulBySpace ((env.cmdline pid).getD "unknown"))
  let working_dir := (env.cwd pid).getD "unknown"
  .ok ⟨pid, name, if command.isEmpty then name else command, working_dir⟩

/-- Operation `HashMap::insert` on the association-list model of the process map. -/
def insertProcess (m : List (Nat × ProcessInfo)) (pid : Nat)
    (info : ProcessInfo) : List (Nat × ProcessInfo) :=
  (m.filter (fun e => e.1 != pid)) ++ [(pid, info)]

/-- Function `get_process_info_map` (src/main.rs lines 232-246): every `/proc` entry
whose name parses as a `u32` is read with `get_process_info` and inserted;
a failing `read_dir` yields the empty map.  Always `Ok`. -/
def get_process_info_map (env : Env) :
    Except String (List (Nat × ProcessInfo)) :=
  match env.procEntries with
  | none => .ok []
  | some names =>
    .ok (names.foldl (fun m name =>
      match rustParseUIntStr 10 4294967296 name with
      | some pid =>
        match get_process_info env pid with
        | .ok info => insertProcess m pid info
        | .error _ => m
      | none => m) [])

/-- Function `parse_net_line` (src/main.rs lines 143-230): parse one socket-table row,
apply the admission filters, and build the output record, resolving the
owning process through `find_process_by_inode` when the inode is nonzero. -/
def parse_net_line (env : Env) (line : String) (protocol : String)
    (process_map : List (Nat × ProcessInfo)) (localhost_only : Bool)
    (specific_port : Option Nat) : Except String (Option PortInfo) :=
  let fields := splitWhitespace line
  if fields.length < 10 then .ok none
  else
    let local_address := fields.getD 1 ""
    let state := fields.getD 3 ""
    let addr_parts := splitOnColon local_address
    if addr_parts.length ≠ 2 then .ok none
    else
      let port := (rustParseUIntStr 16 65536 (addr_parts.getD 1 "")).getD 0
      let addr := (rustParseUIntStr 16 4294967296 (addr_parts.getD 0 "")).getD 0
      let ip := ipString addr
      if localhost_only ∧ ip ≠ "127.0.0.1" ∧ ip ≠ "0.0.0.0" then .ok none
      else if portFilteredOut specific_port port then .ok none
      else
        let state_str := if protocol = "tcp" then tcpStateLabel state else "OPEN"
        if protocol = "tcp" ∧ state ≠ "0A" ∧ specific_port = none then .ok none
        else
          let inode := (rustParseUIntStr 10 4294967296 (fields.getD 9 "0")).getD 0
          match (if inode > 0 then find_process_by_inode env inode process_map
                 else .ok (none, none)) with
          | .error e => .error e
          | .ok (pid, pinfo) =>
            .ok (some ⟨port, rustToUppercase protocol, state_str,
              (match pid with
               | some p => toString p
               | none => "-"),
              (match pinfo with
               | some p => p.name
               | none => "-"),
              (match pinfo with
               | some p => p.command
               | none => "-"),
              (match pinfo with
               | some p => p.working_dir
               | none => "-")⟩)

/-- The per-table loop of `get_open_ports` (src/main.rs lines 123-127 and
131-136): push every parsed record, propagating any error (`?`). -/
def scanLines (env : Env) (protocol : String)
    (process_map : List (Nat × ProcessInfo)) (localhost_only : Bool)
    (specific_port : Option Nat) :
    List String → List PortInfo → Except String (List PortInfo)
  | [], acc => .ok acc
  | l :: rest, acc =>
    match parse_net_line env l protocol process_map localhost_only specific_port with
    | .error e => .error e
    | .ok none => scanLines env protocol process_map localhost_only specific_port rest acc
    | .ok (some p) => scanLines env protocol process_map localhost_only specific_port rest (acc ++ [p])

/-- Embedding of `ports.sort_by_key(|p| p.port)` (src/main.rs line 139).  Rust's
`sort_by_key` is a stable ascending sort by the key; it is embedded as the
stable insertion sort by port. -/
def sortByPort (l : List PortInfo) : List PortInfo :=
  List.insertionSort (fun a b => a.port ≤ b.port) l

/-- Function `get_open_ports` (src/main.rs lines 117-141): build the process map, scan
the TCP table then the UDP table (a table whose read fails contributes
nothing), and sort the accumulated records by port. -/
def get_open_ports (env : Env) (localhost_only : Bool)
    (specific_port : Option Nat) : Except String (List PortInfo) :=
  match get_process_info_map env with
  | .error e => .error e
  | .ok process_map =>
    let afterTcp :=
      match env.tcpTable with
      | some content =>
        scanLines env "tcp" process_map localhost_only specific_port
          ((rustLines content).drop 1) []
      | none => .ok []
    match afterTcp with
    | .error e => .error e
    | .ok ports1 =>
      let afterUdp :=
        match env.udpTable with
        | some content =>
          scanLines env "udp" process_map localhost_only specific_port
            ((rustLines content).drop 1) ports1
        | none => .ok ports1
      match afterUdp with
      | .error e => .error e
      | .ok ports => .ok (sortByPort ports)

/-- The rendering branch chosen by `display_ports` (src/main.rs lines
329-342); the rendering itself is out of scope, only the choice is modelled. -/
inductive DisplayAction where
  | noPortsMessage
  | detailedFormat
  | compactTable
  | standardTable
deriving DecidableEq

/-- Function `display_ports` (src/main.rs lines 329-342): an empty record list prints
"No open ports found." and nothing else; otherwise one of the three table
renderings is chosen. -/
def display_ports (ports : List PortInfo) (detailed compact : Bool) :
    DisplayAction :=
  if ports.isEmpty then .noPortsMessage
  else if detailed then .detailedFormat
  else if compact then .compactTable
  else .standardTable

/-- The record parsed from one row, as an option (`parse_net_line` never
returns an error; this is its `Ok` payload). -/
def parsedLine (env : Env) (line : String) (protocol : String)
    (process_map : List (Nat × ProcessInfo)) (localhost_only : Bool)
    (specific_port : Option Nat) : Option PortInfo :=
  match parse_net_line env line protocol process_map localhost_only specific_port with
  | .ok o => o
  | .error _ => none

/-- The records one protocol table contributes, in row order. -/
def tableRecords (env : Env) (process_map : List (Nat × ProcessInfo))
    (protocol : String) (content : Option String) (localhost_only : Bool)
    (specific_port : Option Nat) : List PortInfo :=
  match content with
  | none => []
  | some c =>
    ((rustLines c).drop 1).filterMap
      (fun l => parsedLine env l protocol process_map localhost_only specific_port)

/-! ## Helper lemmas -/

theorem find_process_by_inode_isOk (env : Env) (inode : Nat) :
    ∀ pm : List (Nat × ProcessInfo), ∃ r, find_process_by_inode env inode pm = .ok r
  | [] => ⟨(none, none), rfl⟩
  | (pid, info) :: rest => by
    unfold find_process_by_inode
    split
    · exact ⟨(some pid, some info), rfl⟩
    · exact find_process_by_inode_isOk env inode rest

theorem find_sound (env : Env) (inode : Nat) :
    ∀ pm : List (Nat × ProcessInfo), ∀ pid info,
      find_process_by_inode env inode pm = .ok (some pid, some info) →
      (pid, info) ∈ pm ∧ ∃ t ∈ env.fdLinks pid, fdLinkMatches t inode = true
  | [], pid, info, h => by simp [find_process_by_inode] at h
  | (q, qi) :: rest, pid, info, h => by
    unfold find_process_by_inode at h
    split at h
    · rename_i hany
      obtain ⟨hq, hqi⟩ : q = pid ∧ qi = info := by
        simpa [Prod.ext_iff] using h
      subst hq; subst hqi
      exact ⟨List.mem_cons_self _ _, List.any_eq_true.mp hany⟩
    · obtain ⟨hm, ht⟩ := find_sound env inode rest pid info h
      exact ⟨List.mem_cons_of_mem _ hm, ht⟩

theorem find_complete (env : Env) (inode : Nat) :
    ∀ pm : List (Nat × ProcessInfo),
      (∀ e ∈ pm, ∀ t ∈ env.fdLinks e.1, fdLinkMatches t inode = false) →
      find_process_by_inode env inode pm = .ok (none, none)
  | [], _ => rfl
  | (q, qi) :: rest, h => by
    unfold find_process_by_inode
    split
    · rename_i hany
      obtain ⟨t, ht, hmatch⟩ := List.any_eq_true.mp hany
      have := h (q, qi) (List.mem_cons_self _ _) t ht
      simp [this] at hmatch
    · exact find_complete env inode rest fun e he => h e (List.mem_cons_of_mem _ he)

theorem find_parity (env : Env) (inode : Nat) :
    ∀ pm : List (Nat × ProcessInfo), ∀ opid oinfo,
      find_process_by_inode env inode pm = .ok (opid, oinfo) →
      (opid.isSome ↔ oinfo.isSome)
  | [], opid, oinfo, h => by
    obtain ⟨h1, h2⟩ : (none : Option Nat) = opid ∧ (none : Option ProcessInfo) = oinfo := by
      simpa [find_process_by_inode, Prod.ext_iff] using h
    subst h1; subst h2; simp
  | (q, qi) :: rest, opid, oinfo, h => by
    unfold find_process_by_inode at h
    split at h
    · obtain ⟨h1, h2⟩ : some q = opid ∧ some qi = oinfo := by
        simpa [Prod.ext_iff] using h
      subst h1; subst h2; simp
    · exact find_parity env inode rest opid oinfo h


theorem parse_net_line_isOk (env : Env) (line protocol : String)
    (pm : List (Nat × ProcessInfo)) (lo : Bool) (sp : Option Nat) :
    ∃ o, parse_net_line env line protocol pm lo sp = .ok o := by
  simp only [parse_net_line]
  repeat' split
  all_goals
    first
    | exact ⟨none, rfl⟩
    | exact ⟨some _, rfl⟩
    | (rename_i heq
       split at heq
       · obtain ⟨r, hr⟩ := find_process_by_inode_isOk env _ pm
         rw [hr] at heq
         exact absurd heq (by simp)
       · exact absurd heq (by simp))

theorem parse_net_line_eq_parsedLine (env : Env) (line protocol : String)
    (pm : List (Nat × ProcessInfo)) (lo : Bool) (sp : Option Nat) :
    parse_net_line env line protocol pm lo sp =
      .ok (parsedLine env line protocol pm lo sp) := by
  obtain ⟨o, ho⟩ := parse_net_line_isOk env line protocol pm lo sp
  rw [parsedLine, ho]

theorem scanLines_eq (env : Env) (protocol : String)
    (pm : List (Nat × ProcessInfo)) (lo : Bool) (sp : Option Nat) :
    ∀ (lines : List String) (acc : List PortInfo),
      scanLines env protocol pm lo sp lines acc =
        .ok (acc ++ lines.filterMap (fun l => parsedLine env l protocol pm lo sp))
  | [], acc => by simp [scanLines]
  | l :: rest, acc => by
    rw [scanLines, parse_net_line_eq_parsedLine]
    cases h : parsedLine env l protocol pm lo sp with
    | none => simp [h, scanLines_eq env protocol pm lo sp rest acc]
    | some p => simp [h, scanLines_eq env protocol pm lo sp rest (acc ++ [p])]

theorem get_process_info_map_isOk (env : Env) :
    ∃ pm, get_process_info_map env = .ok pm := by
  unfold get_process_info_map
  cases env.procEntries <;> exact ⟨_, rfl⟩

theorem get_open_ports_eq (env : Env) (lo : Bool) (sp : Option Nat)
    (pm : List (Nat × ProcessInfo)) (hpm : get_process_info_map env = .ok pm) :
    get_open_ports env lo sp =
      .ok (sortByPort (tableRecords env pm "tcp" env.tcpTable lo sp ++
        tableRecords env pm "udp" env.udpTable lo sp)) := by
  unfold get_open_ports
  rw [hpm]
  cases htcp : env.tcpTable with
  | none =>
    cases hudp : env.udpTable with
    | none => simp [tableRecords]
    | some c => simp [tableRecords, scanLines_eq]
  | some c =>
    cases hudp : env.udpTable with
    | none => simp [tableRecords, scanLines_eq]
    | some c2 => simp [tableRecords, scanLines_eq]

instance : IsTotal PortInfo (fun a b => a.port ≤ b.port) :=
  ⟨fun a b => Nat.le_total a.port b.port⟩

instance : IsTrans PortInfo (fun a b => a.port ≤ b.port) :=
  ⟨fun _ _ _ h1 h2 => Nat.le_trans h1 h2⟩

theorem sortByPort_pairwise (l : List PortInfo) :
    (sortByPort l).Pairwise (fun a b => a.port ≤ b.port) :=
  List.sorted_insertionSort _ l

theorem sortByPort_filter (l : List PortInfo) (p : Nat) :
    (sortByPort l).filter (fun r => r.port == p) = l.filter (fun r => r.port == p) := by
  have hsub : List.Sublist (l.filter (fun r => r.port == p))
      (List.insertionSort (fun a b => a.port ≤ b.port) l) := by
    apply List.sublist_insertionSort
    · apply List.pairwise_of_forall_mem_list
      intro a ha b hb
      have ha2 := List.of_mem_filter ha
      have hb2 := List.of_mem_filter hb
      have ha3 : a.port = p := by simpa using ha2
      have hb3 : b.port = p := by simpa using hb2
      simp [ha3, hb3]
    · exact List.filter_sublist l
  have hperm : List.Perm ((List.insertionSort (fun a b => a.port ≤ b.port) l).filter
      (fun r => r.port == p)) (l.filter (fun r => r.port == p)) :=
    (List.perm_insertionSort _ l).filter _
  have hsub2 : List.Sublist (l.filter (fun r => r.port == p))
      ((List.insertionSort (fun a b => a.port ≤ b.port) l).filter (fun r => r.port == p)) := by
    have h1 := hsub.filter (fun r => r.port == p)
    rwa [List.filter_filter, show (fun (a : PortInfo) => (a.port == p) && (a.port == p)) =
      (fun a => a.port == p) from funext (fun a => Bool.and_self _)] at h1
  exact (hsub2.eq_of_length hperm.length_eq.symm).symm

theorem stripExactPre_append : ∀ pre rest : List Char,
    stripExactPre pre (pre ++ rest) = some rest
  | [], _ => rfl
  | p :: ps, rest => by
    simp [stripExactPre, stripExactPre_append ps rest]

theorem stripExactSuf_append (suf rest : List Char) :
    stripExactSuf suf (rest ++ suf) = some rest := by
  rw [stripExactSuf, List.reverse_append, stripExactPre_append]
  simp

theorem digitVal_plus (b : Nat) : digitVal b '+' = none := by
  simp [digitVal]

theorem rustParseUInt_of_digitsVal (b B : Nat) (c : Char) (cs : List Char) (v : Nat)
    (h : digitsVal b 0 (c :: cs) = some v) (hv : v < B) :
    rustParseUInt b B (c :: cs) = some v := by
  have hc : c ≠ '+' := by
    intro hc
    rw [hc, digitsVal, digitVal_plus] at h
    exact absurd h (by simp)
  have hstrip : (match c :: cs with
      | '+' :: rest => rest
      | other => other) = c :: cs := by
    split
    · rename_i rest heq
      obtain ⟨h1, h2⟩ := List.cons.inj heq
      exact absurd h1 hc
    · rfl
  simp only [rustParseUInt, hstrip]
  rw [h]
  simp [hv]

theorem rustParseUInt_lt (b B : Nat) (cs : List Char) (v : Nat)
    (h : rustParseUInt b B cs = some v) : v < B := by
  simp only [rustParseUInt] at h
  split at h
  · exact absurd h (by simp)
  · split at h
    · rename_i w hw
      split at h
      · rename_i hlt
        obtain rfl : w = v := by simpa using h
        exact hlt
      · exact absurd h (by simp)
    · exact absurd h (by simp)

/-- Claim C1. For every target inode and process table, `find_process_by_inode`
returns the identifier and record of a process one of whose descriptor links
matches the pattern `socket:[<digits>]` with `<digits>` parsing to that inode
(spec 4.4); when no process has such a link it returns `(none, none)`; the
two outputs are always both present or both absent, and a returned identifier
is always an entry of the table, never a default.  The last conjunct shows
that a literal link `socket:[<inode>]` (any digit string whose value is the
inode) does match. -/
theorem resolver_returns_matching_process (env : Env) (inode : Nat)
    (pm : List (Nat × ProcessInfo)) :
    (∀ pid info,
       find_process_by_inode env inode pm = .ok (some pid, some info) →
       (pid, info) ∈ pm ∧ ∃ t ∈ env.fdLinks pid, fdLinkMatches t inode = true) ∧
    ((∀ e ∈ pm, ∀ t ∈ env.fdLinks e.1, fdLinkMatches t inode = false) →
       find_process_by_inode env inode pm = .ok (none, none)) ∧
    (∀ opid oinfo,
       find_process_by_inode env inode pm = .ok (opid, oinfo) →
       (opid.isSome ↔ oinfo.isSome)) ∧
    (∀ ds, digitsVal 10 0 ds = some inode → ds ≠ [] → inode < 4294967296 →
       fdLinkMatches (String.mk ("socket:[".data ++ ds ++ [']'])) inode = true) := by
  refine ⟨find_sound env inode pm, find_complete env inode pm,
    find_parity env inode pm, ?_⟩
  intro ds hds hne hlt
  cases ds with
  | nil => exact absurd rfl hne
  | cons c cs =>
    rw [fdLinkMatches, socketLinkInode]
    have hpre : startsWithChars "socket:[".data
        (String.mk ("socket:[".data ++ c :: cs ++ [']'])).data = true := by
      show (stripExactPre "socket:[".data ("socket:[".data ++ (c :: cs ++ [']']))).isSome = true
      rw [stripExactPre_append]
      rfl
    rw [if_pos hpre]
    have h1 : stripExactPre "socket:[".data
        (String.mk ("socket:[".data ++ c :: cs ++ [']'])).data = some (c :: cs ++ [']']) := by
      show stripExactPre "socket:[".data ("socket:[".data ++ (c :: cs ++ [']'])) = some _
      rw [stripExactPre_append]
    rw [h1]
    simp only [← List.cons_append, stripExactSuf_append]
    rw [rustParseUInt_of_digitsVal 10 4294967296 c cs inode hds hlt]
    simp

def envResolver : Env :=
  ⟨none, fun _ => none, fun _ => none, fun _ => none,
    fun p => if p = 42 then ["socket:[12345]"] else [], none, none⟩

def procNginx : ProcessInfo := ⟨42, "nginx", "nginx -g daemon off;", "/srv"⟩

/-- Witness for C1 at a concrete table: process 42 holds `socket:[12345]`. -/
theorem resolver_returns_matching_process_witness :
    ((42, procNginx) ∈ [(42, procNginx)] ∧
       ∃ t ∈ envResolver.fdLinks 42, fdLinkMatches t 12345 = true) ∧
    fdLinkMatches (String.mk ("socket:[".data ++ "12345".data ++ [']'])) 12345 = true :=
  ⟨(resolver_returns_matching_process envResolver 12345 [(42, procNginx)]).1
      42 procNginx rfl,
   (resolver_returns_matching_process envResolver 12345 [(42, procNginx)]).2.2.2
      "12345".data (by decide) (by decide) (by decide)⟩

/-- Claim C9. Function `get_process_info` always returns `Ok`: an unreadable `comm`
yields name `"unknown"`, an unreadable `cwd` link yields working directory
`"unknown"`, and a readable command line is NUL-to-space replaced and
trimmed, falling back to the name when the result is empty. -/
theorem process_info_total_sentinels (env : Env) (pid : Nat) :
    ∃ info, get_process_info env pid = .ok info ∧
      (env.comm pid = none → info.name = "unknown") ∧
      (env.cwd pid = none → info.working_dir = "unknown") ∧
      (∀ s, env.cmdline pid = some s →
        info.command =
          if (rustTrim (replaceNulBySpace s)).isEmpty then info.name
          else rustTrim (replaceNulBySpace s)) := by
  refine ⟨_, rfl, ?_, ?_, ?_⟩
  · intro h
    show rustTrim ((env.comm pid).getD "unknown") = "unknown"
    rw [h]
    rfl
  · intro h
    show (env.cwd pid).getD "unknown" = "unknown"
    rw [h]
    rfl
  · intro s h
    show (if (rustTrim (replaceNulBySpace ((env.cmdline pid).getD "unknown"))).isEmpty
        then rustTrim ((env.comm pid).getD "unknown")
        else rustTrim (replaceNulBySpace ((env.cmdline pid).getD "unknown"))) = _
    rw [h]
    rfl

def envNoCmdline : Env :=
  ⟨none, fun _ => some "bash\n", fun _ => none, fun _ => some "/home", fun _ => [], none, none⟩

/-- The environment in which every read fails. -/
def envEmpty : Env :=
  ⟨none, fun _ => none, fun _ => none, fun _ => none, fun _ => [], none, none⟩

/-- Witness for C9 at a concrete environment whose reads all fail. -/
theorem process_info_total_sentinels_witness :
    ∃ info, get_process_info envEmpty 7 = .ok info ∧
      info.name = "unknown" ∧ info.working_dir = "unknown" := by
  obtain ⟨info, hok, hname, hwd, -⟩ := process_info_total_sentinels envEmpty 7
  exact ⟨info, hok, hname rfl, hwd rfl⟩

/-- Claim C10. When the command-line read fails, the command field is the
literal `"unknown"`, not the process name; the fall-back-to-name rule applies
exactly when the read succeeds and the replaced-and-trimmed content is
empty. -/
theorem cmdline_unreadable_unknown (env : Env) (pid : Nat) (info : ProcessInfo)
    (h : get_process_info env pid = .ok info) :
    (env.cmdline pid = none → info.command = "unknown") ∧
    (∀ s, env.cmdline pid = some s →
      (rustTrim (replaceNulBySpace s)).isEmpty = true → info.command = info.name) := by
  simp only [get_process_info, Except.ok.injEq] at h
  subst h
  constructor
  · intro hnone
    show (if (rustTrim (replaceNulBySpace ((env.cmdline pid).getD "unknown"))).isEmpty
        then rustTrim ((env.comm pid).getD "unknown")
        else rustTrim (replaceNulBySpace ((env.cmdline pid).getD "unknown"))) = "unknown"
    rw [hnone]
    rfl
  · intro s hs hempty
    show (if (rustTrim (replaceNulBySpace ((env.cmdline pid).getD "unknown"))).isEmpty
        then rustTrim ((env.comm pid).getD "unknown")
        else rustTrim (replaceNulBySpace ((env.cmdline pid).getD "unknown"))) =
      rustTrim ((env.comm pid).getD "unknown")
    rw [hs]
    simp only [Option.getD_some, hempty]
    rfl

/-- Witness for C10: with `cmdline` unreadable the command is `"unknown"`
even though the name is `"bash"`. -/
theorem cmdline_unreadable_unknown_witness :
    (ProcessInfo.mk 7 "bash" "unknown" "/home").command = "unknown" :=
  (cmdline_unreadable_unknown envNoCmdline 7
    (ProcessInfo.mk 7 "bash" "unknown" "/home") rfl).1 rfl

theorem land255_eq_mod (n : Nat) : n &&& 255 = n % 256 := by
  have h := Nat.and_pow_two_sub_one_eq_mod n 8
  norm_num at h
  exact h

theorem shift_div (n k : Nat) : n >>> k = n / 2 ^ k :=
  Nat.shiftRight_eq_div_pow n k

/-- Claim C4. A hex address that parses is a 32-bit value, and the
reconstructed dotted-decimal string is its little-endian byte decomposition
`(addr & 0xFF).(addr>>8 & 0xFF).(addr>>16 & 0xFF).(addr>>24 & 0xFF)`,
equivalently the mod/div octets; prepending a leading zero to the hex
encoding changes neither the parsed value nor the string. -/
theorem ip_reconstruction_little_endian :
    (∀ s addr, rustParseUIntStr 16 4294967296 s = some addr →
       addr < 4294967296 ∧
       ipString addr =
         toString (addr &&& 255) ++ "." ++ toString ((addr >>> 8) &&& 255) ++ "." ++
           toString ((addr >>> 16) &&& 255) ++ "." ++ toString ((addr >>> 24) &&& 255) ∧
       ipString addr =
         toString (addr % 256) ++ "." ++ toString (addr / 256 % 256) ++ "." ++
           toString (addr / 65536 % 256) ++ "." ++ toString (addr / 16777216 % 256)) ∧
    (∀ s addr, rustParseUIntStr 16 4294967296 s = some addr →
       s.data.head? ≠ some '+' →
       rustParseUIntStr 16 4294967296 (String.mk ('0' :: s.data)) = some addr) := by
  constructor
  · intro s addr h
    refine ⟨rustParseUInt_lt 16 4294967296 s.data addr h, rfl, ?_⟩
    rw [ipString, land255_eq_mod, shift_div, shift_div, shift_div,
      land255_eq_mod, land255_eq_mod, land255_eq_mod]
    norm_num
  · intro s addr h hplus
    rw [rustParseUIntStr] at h ⊢
    cases hd : s.data with
    | nil => rw [hd] at h; exact absurd h (by simp [rustParseUInt])
    | cons c cs =>
      rw [hd] at h hplus
      have hc : c ≠ '+' := by simpa using hplus
      have hstrip : (match c :: cs with
          | '+' :: rest => rest
          | other => other) = c :: cs := by
        split
        · rename_i rest heq
          obtain ⟨h1, h2⟩ := List.cons.inj heq
          exact absurd h1 hc
        · rfl
      simp only [rustParseUInt, hstrip] at h
      show rustParseUInt 16 4294967296 ('0' :: c :: cs) = some addr
      have hds : digitsVal 16 0 ('0' :: c :: cs) = digitsVal 16 0 (c :: cs) := rfl
      simp only [rustParseUInt, hds]
      exact h

/-- Witness for C4 at the row address `0100007F` (127.0.0.1). -/
theorem ip_reconstruction_little_endian_witness :
    ipString 16777343 = "127.0.0.1" ∧
    rustParseUIntStr 16 4294967296 (String.mk ('0' :: "0100007F".data)) =
      some 16777343 := by
  have h1 := (ip_reconstruction_little_endian.1 "0100007F" 16777343 (by decide)).2.2
  have h2 := ip_reconstruction_little_endian.2 "0100007F" 16777343 (by decide) (by decide)
  refine ⟨?_, h2⟩
  rw [h1]
  rfl

theorem parse_some_fields (env : Env) (line protocol : String)
    (pm : List (Nat × ProcessInfo)) (lo : Bool) (sp : Option Nat) (rec : PortInfo)
    (h : parse_net_line env line protocol pm lo sp = .ok (some rec)) :
    rec.port = (rustParseUIntStr 16 65536
      ((splitOnColon ((splitWhitespace line).getD 1 "")).getD 1 "")).getD 0 ∧
    rec.protocol = rustToUppercase protocol ∧
    rec.state = (if protocol = "tcp"
      then tcpStateLabel ((splitWhitespace line).getD 3 "") else "OPEN") ∧
    ∃ opid opinfo,
      (if (rustParseUIntStr 10 4294967296
            ((splitWhitespace line).getD 9 "0")).getD 0 > 0
       then find_process_by_inode env
         ((rustParseUIntStr 10 4294967296 ((splitWhitespace line).getD 9 "0")).getD 0) pm
       else .ok (none, none)) = .ok (opid, opinfo) ∧
      rec.pid = (match opid with
        | some p => toString p
        | none => "-") ∧
      rec.process_name = (match opinfo with
        | some p => p.name
        | none => "-") ∧
      rec.command = (match opinfo with
        | some p => p.command
        | none => "-") ∧
      rec.working_dir = (match opinfo with
        | some p => p.working_dir
        | none => "-") := by
  simp only [parse_net_line] at h
  split at h
  · exact absurd h (by simp)
  · split at h
    · exact absurd h (by simp)
    · split at h
      · exact absurd h (by simp)
      · split at h
        · exact absurd h (by simp)
        · split at h
          · exact absurd h (by simp)
          · split at h
            · exact absurd h (by simp)
            · rename_i r opid opinfo heq
              injection h with h1
              injection h1 with h2
              subst h2
              exact ⟨rfl, rfl, rfl, opid, opinfo, heq, rfl, rfl, rfl, rfl⟩

/-- The parsed port of a socket-table row (field 1, after the colon). -/
def rowPort (line : String) : Nat :=
  (rustParseUIntStr 16 65536
    ((splitOnColon ((splitWhitespace line).getD 1 "")).getD 1 "")).getD 0

/-- The parsed 32-bit address of a socket-table row (field 1, before the colon). -/
def rowAddr (line : String) : Nat :=
  (rustParseUIntStr 16 4294967296
    ((splitOnColon ((splitWhitespace line).getD 1 "")).getD 0 "")).getD 0

/-- The state-code field of a socket-table row (field 3). -/
def rowState (line : String) : String :=
  (splitWhitespace line).getD 3 ""

/-- The parsed inode of a socket-table row (field 9; unparsable means 0). -/
def rowInode (line : String) : Nat :=
  (rustParseUIntStr 10 4294967296 ((splitWhitespace line).getD 9 "0")).getD 0

/-- Claim C5. The state label depends only on protocol and state code: the
eleven TCP codes map to their fixed labels and every other code to UNKNOWN,
every admitted TCP record carries `tcpStateLabel` of its row's state code,
and every admitted UDP record is labeled OPEN whatever its state field. -/
theorem state_labels :
    (tcpStateLabel "0A" = "LISTEN" ∧ tcpStateLabel "01" = "ESTABLISHED" ∧
     tcpStateLabel "02" = "SYN_SENT" ∧ tcpStateLabel "03" = "SYN_RECV" ∧
     tcpStateLabel "04" = "FIN_WAIT1" ∧ tcpStateLabel "05" = "FIN_WAIT2" ∧
     tcpStateLabel "06" = "TIME_WAIT" ∧ tcpStateLabel "07" = "CLOSE" ∧
     tcpStateLabel "08" = "CLOSE_WAIT" ∧ tcpStateLabel "09" = "LAST_ACK" ∧
     tcpStateLabel "0B" = "CLOSING") ∧
    (∀ s, s ∉ ["0A", "01", "02", "03", "04", "05", "06", "07", "08", "09", "0B"] →
       tcpStateLabel s = "UNKNOWN") ∧
    (∀ env line pm lo sp rec,
       parse_net_line env line "tcp" pm lo sp = .ok (some rec) →
       rec.state = tcpStateLabel (rowState line)) ∧
    (∀ env line pm lo sp rec,
       parse_net_line env line "udp" pm lo sp = .ok (some rec) →
       rec.state = "OPEN") := by
  refine ⟨by decide, ?_, ?_, ?_⟩
  · intro s hs
    simp only [List.mem_cons, List.not_mem_nil, or_false, not_or] at hs
    obtain ⟨h1, h2, h3, h4, h5, h6, h7, h8, h9, h10, h11⟩ := hs
    simp [tcpStateLabel, h1, h2, h3, h4, h5, h6, h7, h8, h9, h10, h11]
  · intro env line pm lo sp rec h
    have hst := (parse_some_fields env line "tcp" pm lo sp rec h).2.2.1
    simpa [rowState] using hst
  · intro env line pm lo sp rec h
    have hst := (parse_some_fields env line "udp" pm lo sp rec h).2.2.1
    simpa using hst

/-- A sample TCP socket-table row: 127.0.0.1:80, LISTEN, inode 12345. -/
def sampleTcpLine : String :=
  "0: 0100007F:0050 00000000:0000 0A 00000000:00000000 00:00000000 00000000 0 0 12345"

/-- Witness for C5 at the sample LISTEN row. -/
theorem state_labels_witness :
    (PortInfo.mk 80 "TCP" "LISTEN" "-" "-" "-" "-").state =
      tcpStateLabel (rowState sampleTcpLine) :=
  state_labels.2.2.1 envEmpty sampleTcpLine [] true none
    (PortInfo.mk 80 "TCP" "LISTEN" "-" "-" "-" "-") rfl

theorem inode_zero_fields (env : Env) (line protocol : String)
    (pm : List (Nat × ProcessInfo)) (lo : Bool) (sp : Option Nat) (rec : PortInfo)
    (hinode : rowInode line = 0)
    (h : parse_net_line env line protocol pm lo sp = .ok (some rec)) :
    rec.pid = "-" ∧ rec.process_name = "-" ∧ rec.command = "-" ∧
    rec.working_dir = "-" := by
  simp only [rowInode] at hinode
  obtain ⟨-, -, -, opid, opinfo, heq, hp1, hp2, hp3, hp4⟩ :=
    parse_some_fields env line protocol pm lo sp rec h
  rw [hinode] at heq
  simp only [gt_iff_lt, Nat.lt_irrefl, if_false] at heq
  obtain ⟨hpid, hinfo⟩ : (none : Option Nat) = opid ∧
      (none : Option ProcessInfo) = opinfo := by
    simpa [Prod.ext_iff] using heq
  subst hpid; subst hinfo
  exact ⟨hp1, hp2, hp3, hp4⟩

/-- Claim C6. When an admitted row's owning inode is 0 the record has all four
process fields `"-"`, and the resolver is never consulted: the same record
results from the same row under every environment and every process table. -/
theorem inode_zero_sentinel (env : Env) (line protocol : String)
    (pm : List (Nat × ProcessInfo)) (lo : Bool) (sp : Option Nat) (rec : PortInfo)
    (hinode : rowInode line = 0)
    (h : parse_net_line env line protocol pm lo sp = .ok (some rec)) :
    rec.pid = "-" ∧ rec.process_name = "-" ∧ rec.command = "-" ∧
    rec.working_dir = "-" ∧
    ∀ env2 pm2, parse_net_line env2 line protocol pm2 lo sp = .ok (some rec) := by
  obtain ⟨hp1, hp2, hp3, hp4⟩ :=
    inode_zero_fields env line protocol pm lo sp rec hinode h
  simp only [rowInode] at hinode
  refine ⟨hp1, hp2, hp3, hp4, ?_⟩
  intro env2 pm2
  have hsame : parse_net_line env2 line protocol pm2 lo sp =
      parse_net_line env line protocol pm lo sp := by
    simp only [parse_net_line, hinode, gt_iff_lt, Nat.lt_irrefl, if_false]
  rw [hsame, h]

/-- A sample row whose inode field is 0. -/
def sampleZeroInodeLine : String :=
  "0: 0100007F:0050 00000000:0000 0A 00000000:00000000 00:00000000 00000000 0 0 0"

/-- Witness for C6: the inode-0 row keeps sentinels even when the process
table does contain a socket-holding process. -/
theorem inode_zero_sentinel_witness :
    (PortInfo.mk 80 "TCP" "LISTEN" "-" "-" "-" "-").pid = "-" ∧
    parse_net_line envResolver sampleZeroInodeLine "tcp" [(42, procNginx)] true none =
      .ok (some (PortInfo.mk 80 "TCP" "LISTEN" "-" "-" "-" "-")) := by
  obtain ⟨h1, -, -, -, hind⟩ := inode_zero_sentinel envEmpty sampleZeroInodeLine "tcp"
    [] true none (PortInfo.mk 80 "TCP" "LISTEN" "-" "-" "-" "-") rfl rfl
  exact ⟨h1, hind envResolver [(42, procNginx)]⟩

theorem parse_admitted (env : Env) (line protocol : String)
    (pm : List (Nat × ProcessInfo)) (lo : Bool) (sp : Option Nat)
    (hwf1 : ¬ (splitWhitespace line).length < 10)
    (hwf2 : ¬ (splitOnColon ((splitWhitespace line).getD 1 "")).length ≠ 2)
    (hloc : ¬ (lo = true ∧ ipString (rowAddr line) ≠ "127.0.0.1" ∧
      ipString (rowAddr line) ≠ "0.0.0.0"))
    (hport : portFilteredOut sp (rowPort line) = false)
    (hstatecheck : ¬ (protocol = "tcp" ∧ rowState line ≠ "0A" ∧ sp = none)) :
    ∃ rec, parse_net_line env line protocol pm lo sp = .ok (some rec) ∧
      rec.state = (if protocol = "tcp" then tcpStateLabel (rowState line)
        else "OPEN") ∧
      rec.port = rowPort line := by
  simp only [rowAddr, rowPort, rowState] at hloc hport hstatecheck ⊢
  simp only [parse_net_line]
  rw [if_neg hwf1, if_neg hwf2, if_neg hloc,
    if_neg (fun hcon => Bool.noConfusion (hcon ▸ hport)), if_neg hstatecheck]
  by_cases hi : (rustParseUIntStr 10 4294967296
      ((splitWhitespace line).getD 9 "0")).getD 0 > 0
  · rw [if_pos hi]
    obtain ⟨⟨opid, opinfo⟩, hr⟩ := find_process_by_inode_isOk env
      ((rustParseUIntStr 10 4294967296 ((splitWhitespace line).getD 9 "0")).getD 0) pm
    rw [hr]
    exact ⟨_, rfl, rfl, rfl⟩
  · rw [if_neg hi]
    exact ⟨_, rfl, rfl, rfl⟩

/-- Counterexample to claim C2 as stated: this TCP row has state code `0A` and
no specific-port filter is active, yet it is dropped, because the
default-active localhost filter rejects its address 1.2.3.4. -/
def nonLocalTcpLine : String :=
  "0: 04030201:0050 00000000:0000 0A 00000000:00000000 00:00000000 00000000 0 0 0"

theorem tcp_listen_admission_counterexample :
    rowState nonLocalTcpLine = "0A" ∧
    ipString (rowAddr nonLocalTcpLine) = "1.2.3.4" ∧
    parse_net_line envEmpty nonLocalTcpLine "tcp" [] true none = .ok none :=
  ⟨rfl, rfl, rfl⟩

/-- Claim C2, amended. For a TCP row that is well formed (at least 10 fields,
exactly one `:` in the local address) and passes the localhost filter:
with no port filter, state `0A` is admitted as LISTEN; with a matching port
filter, any state is admitted with its label.  With no port filter, a TCP
row whose state is not `0A` is dropped — for every row, well formed or not. -/
theorem tcp_admission_amended :
    (∀ env line pm lo sp,
       ¬ (splitWhitespace line).length < 10 →
       ¬ (splitOnColon ((splitWhitespace line).getD 1 "")).length ≠ 2 →
       ¬ (lo = true ∧ ipString (rowAddr line) ≠ "127.0.0.1" ∧
          ipString (rowAddr line) ≠ "0.0.0.0") →
       sp = none → rowState line = "0A" →
       ∃ rec, parse_net_line env line "tcp" pm lo sp = .ok (some rec) ∧
         rec.state = "LISTEN") ∧
    (∀ env line pm lo (sp : Option Nat),
       sp = none → rowState line ≠ "0A" →
       parse_net_line env line "tcp" pm lo sp = .ok none) ∧
    (∀ env line pm lo sp t,
       ¬ (splitWhitespace line).length < 10 →
       ¬ (splitOnColon ((splitWhitespace line).getD 1 "")).length ≠ 2 →
       ¬ (lo = true ∧ ipString (rowAddr line) ≠ "127.0.0.1" ∧
          ipString (rowAddr line) ≠ "0.0.0.0") →
       sp = some t → rowPort line = t →
       ∃ rec, parse_net_line env line "tcp" pm lo sp = .ok (some rec) ∧
         rec.state = tcpStateLabel (rowState line)) := by
  refine ⟨?_, ?_, ?_⟩
  · intro env line pm lo sp hwf1 hwf2 hloc hsp hstate
    subst hsp
    obtain ⟨rec, hok, hstatelbl, -⟩ := parse_admitted env line "tcp" pm lo none
      hwf1 hwf2 hloc rfl (by simp [hstate])
    refine ⟨rec, hok, ?_⟩
    rw [hstatelbl, if_pos rfl, hstate]
    rfl
  · intro env line pm lo sp hsp hstate
    subst hsp
    simp only [rowState] at hstate
    simp only [parse_net_line]
    split
    · rfl
    · split
      · rfl
      · split
        · rfl
        · split
          · rfl
          · split
            · rfl
            · rename_i h5
              exact absurd ⟨trivial, hstate, trivial⟩ h5
  · intro env line pm lo sp t hwf1 hwf2 hloc hsp hportm
    subst hsp
    obtain ⟨rec, hok, hstatelbl, -⟩ := parse_admitted env line "tcp" pm lo (some t)
      hwf1 hwf2 hloc (by simp [portFilteredOut, hportm.symm]) (by simp)
    refine ⟨rec, hok, ?_⟩
    rw [hstatelbl, if_pos rfl]

/-- Witness for the amended C2 at the sample localhost LISTEN row. -/
theorem tcp_admission_amended_witness :
    ∃ rec, parse_net_line envEmpty sampleTcpLine "tcp" [] true none =
      .ok (some rec) ∧ rec.state = "LISTEN" :=
  tcp_admission_amended.1 envEmpty sampleTcpLine [] true none
    (by decide) (by decide) (by decide) rfl (by decide)

/-- Claim C7. Malformed rows are dropped without aborting the scan, and
partial parses default instead of failing: fewer than 10 fields or a local
address that does not split into exactly two parts yields no record; a
dropped row leaves the processing of the remaining rows unchanged; in a kept
row an unparsable hex port gives port 0, an unparsable hex address is
treated as address 0 (rendered `0.0.0.0`), and an unparsable inode field is
treated as inode 0 (all process fields sentinel). -/
theorem malformed_rows_dropped_defaults :
    (∀ env line protocol pm lo sp, (splitWhitespace line).length < 10 →
       parse_net_line env line protocol pm lo sp = .ok none) ∧
    (∀ env line protocol pm lo sp,
       (splitOnColon ((splitWhitespace line).getD 1 "")).length ≠ 2 →
       parse_net_line env line protocol pm lo sp = .ok none) ∧
    (∀ env line protocol pm lo sp rest acc,
       parse_net_line env line protocol pm lo sp = .ok none →
       scanLines env protocol pm lo sp (line :: rest) acc =
         scanLines env protocol pm lo sp rest acc) ∧
    (∀ env line protocol pm lo sp rec,
       parse_net_line env line protocol pm lo sp = .ok (some rec) →
       rustParseUIntStr 16 65536
         ((splitOnColon ((splitWhitespace line).getD 1 "")).getD 1 "") = none →
       rec.port = 0) ∧
    (∀ s, rustParseUIntStr 16 4294967296 s = none →
       ipString ((rustParseUIntStr 16 4294967296 s).getD 0) = "0.0.0.0") ∧
    (∀ env line protocol pm lo sp rec,
       parse_net_line env line protocol pm lo sp = .ok (some rec) →
       rustParseUIntStr 10 4294967296 ((splitWhitespace line).getD 9 "0") = none →
       rec.pid = "-" ∧ rec.process_name = "-" ∧ rec.command = "-" ∧
         rec.working_dir = "-") := by
  refine ⟨?_, ?_, ?_, ?_, ?_, ?_⟩
  · intro env line protocol pm lo sp h
    simp only [parse_net_line]
    rw [if_pos h]
  · intro env line protocol pm lo sp h
    simp only [parse_net_line]
    split <;> rfl
  · intro env line protocol pm lo sp rest acc h
    rw [scanLines, h]
  · intro env line protocol pm lo sp rec h hnone
    have hport := (parse_some_fields env line protocol pm lo sp rec h).1
    rw [hnone] at hport
    exact hport
  · intro s h
    rw [h]
    rfl
  · intro env line protocol pm lo sp rec h hnone
    have hz : rowInode line = 0 := by
      simp only [rowInode, hnone, Option.getD_none]
    exact inode_zero_fields env line protocol pm lo sp rec hz h

/-- Witness for C7: a 3-field row yields no record and drops out of the
scan loop; an unparsable hex address renders as 0.0.0.0. -/
theorem malformed_rows_dropped_defaults_witness :
    parse_net_line envEmpty "1 2 3" "tcp" [] true none = .ok none ∧
    scanLines envEmpty "tcp" [] true none ["1 2 3", sampleTcpLine] [] =
      scanLines envEmpty "tcp" [] true none [sampleTcpLine] [] ∧
    ipString ((rustParseUIntStr 16 4294967296 "XYZ").getD 0) = "0.0.0.0" :=
  ⟨malformed_rows_dropped_defaults.1 envEmpty "1 2 3" "tcp" [] true none (by decide),
   malformed_rows_dropped_defaults.2.2.1 envEmpty "1 2 3" "tcp" [] true none
     [sampleTcpLine] []
     (malformed_rows_dropped_defaults.1 envEmpty "1 2 3" "tcp" [] true none (by decide)),
   malformed_rows_dropped_defaults.2.2.2.2.1 "XYZ" (by decide)⟩

/-- Claim C3. The snapshot is sorted ascending by port; records with equal
ports keep encounter order — the filtered subsequence at any port equals the
filtered subsequence of the unsorted concatenation, TCP-table records before
UDP-table records, each in row order — and every port-80 record precedes
every port-8080 record. -/
theorem snapshot_sorted_stable (env : Env) (lo : Bool) (sp : Option Nat)
    (out : List PortInfo) (pm : List (Nat × ProcessInfo))
    (hpm : get_process_info_map env = .ok pm)
    (hout : get_open_ports env lo sp = .ok out) :
    out.Pairwise (fun a b => a.port ≤ b.port) ∧
    (∀ p, out.filter (fun r => r.port == p) =
      (tableRecords env pm "tcp" env.tcpTable lo sp ++
        tableRecords env pm "udp" env.udpTable lo sp).filter (fun r => r.port == p)) ∧
    (∀ i j (hi : i < out.length) (hj : j < out.length),
      (out.get ⟨i, hi⟩).port = 80 → (out.get ⟨j, hj⟩).port = 8080 → i < j) := by
  have heq := get_open_ports_eq env lo sp pm hpm
  rw [hout] at heq
  injection heq with heq2
  subst heq2
  refine ⟨sortByPort_pairwise _, fun p => sortByPort_filter _ p, ?_⟩
  intro i j hi hj h80 h8080
  by_contra hij
  push_neg at hij
  rcases Nat.lt_or_ge j i with hlt | hge
  · have hpw := sortByPort_pairwise (tableRecords env pm "tcp" env.tcpTable lo sp ++
      tableRecords env pm "udp" env.udpTable lo sp)
    have := (List.pairwise_iff_get.mp hpw) ⟨j, hj⟩ ⟨i, hi⟩ hlt
    rw [h80, h8080] at this
    omega
  · have hji : j = i := Nat.le_antisymm hij hge
    subst hji
    rw [h80] at h8080
    omega

/-- A TCP table with one header line and two LISTEN rows, ports 8080 then 80. -/
def envTwoRows : Env :=
  ⟨none, fun _ => none, fun _ => none, fun _ => none, fun _ => [],
    some (String.intercalate "\n"
      ["sl local_address rem_address st tx_queue",
       "0: 0100007F:1F90 00000000:0000 0A 00000000:00000000 00:00000000 00000000 0 0 0",
       "1: 0100007F:0050 00000000:0000 0A 00000000:00000000 00:00000000 00000000 0 0 0"]),
    none⟩

/-- Witness for C3: the rows appear sorted, port 80 before port 8080. -/
theorem snapshot_sorted_stable_witness :
    ([PortInfo.mk 80 "TCP" "LISTEN" "-" "-" "-" "-",
      PortInfo.mk 8080 "TCP" "LISTEN" "-" "-" "-" "-"] : List PortInfo).Pairwise
      (fun a b => a.port ≤ b.port) :=
  (snapshot_sorted_stable envTwoRows true none
    [PortInfo.mk 80 "TCP" "LISTEN" "-" "-" "-" "-",
     PortInfo.mk 8080 "TCP" "LISTEN" "-" "-" "-" "-"] [] rfl rfl).1

/-- Counterexample to claim C8 as stated: when neither socket table can be
read the scan does NOT surface a terminal failure — `get_open_ports`
returns `Ok` with the empty list, and the program prints the
"No open ports found." message. -/
theorem both_tables_missing_counterexample :
    get_open_ports envEmpty true none = .ok [] ∧
    display_ports [] false false = DisplayAction.noPortsMessage :=
  ⟨rfl, rfl⟩

/-- Claim C8, amended. Function `get_open_ports` never returns an error: if neither
table is readable it returns the empty list (reported as "No open ports
found", not as a failure); a missing table for one protocol degrades to the
other protocol's records alone; and the empty-result message is a rendering
branch distinct from every non-empty rendering. -/
theorem missing_tables_degrade (env : Env) (lo : Bool) (sp : Option Nat) :
    ∃ out, get_open_ports env lo sp = .ok out ∧
      (env.tcpTable = none → env.udpTable = none → out = []) ∧
      (∀ pm, get_process_info_map env = .ok pm →
        (env.tcpTable = none →
          out = sortByPort (tableRecords env pm "udp" env.udpTable lo sp)) ∧
        (env.udpTable = none →
          out = sortByPort (tableRecords env pm "tcp" env.tcpTable lo sp))) ∧
      (∀ d c, display_ports [] d c = DisplayAction.noPortsMessage) ∧
      (∀ ps d c, ps ≠ [] → display_ports ps d c ≠ DisplayAction.noPortsMessage) := by
  obtain ⟨pm, hpm⟩ := get_process_info_map_isOk env
  refine ⟨_, get_open_ports_eq env lo sp pm hpm, ?_, ?_, ?_, ?_⟩
  · intro h1 h2
    rw [h1, h2]
    rfl
  · intro pm2 hpm2
    rw [hpm] at hpm2
    injection hpm2 with hpm3
    subst hpm3
    constructor
    · intro h1
      rw [h1]
      simp [tableRecords]
    · intro h2
      rw [h2]
      simp [tableRecords]
  · intro d c
    rfl
  · intro ps d c hne
    cases ps with
    | nil => exact absurd rfl hne
    | cons a t =>
      cases d <;> cases c <;> simp [display_ports]

/-- Witness for the amended C8 at the all-unreadable environment. -/
theorem missing_tables_degrade_witness :
    ∃ out, get_open_ports envEmpty true none = .ok out ∧ out = [] := by
  obtain ⟨out, hok, hboth, -, -, -⟩ := missing_tables_degrade envEmpty true none
  exact ⟨out, hok, hboth rfl rfl⟩
